import Mathlib

/-!
Shallow embedding of the control-plane core of the `libv4l-rs` repository
(`src/device.rs`, `src/media/{mod,device,entity,link,request}.rs`).

The out-of-scope syscall layer (`open`/`ioctl`/`poll`/`close`) is modelled as
oracle functions supplied to each embedded operation: an oracle maps the n-th
request (or the request's payload) to the response the kernel driver would
write back.  Machine integers are modelled as `Nat`/`Int` with explicit
`% 2^w` where the source truncates or sign-extends.
-/

namespace V4l

/-- The error classification carried by a Rust `std::io::Error`, restricted to
the kinds this crate inspects or produces.  `invalidInput` embeds
`io::ErrorKind::InvalidInput` (the kernel's `EINVAL`); every other kind is
collapsed into the remaining constructors. -/
inductive ErrorKind where
  | invalidInput
  | notFound
  | permissionDenied
  | busy
  | other
deriving DecidableEq, Repr

/-- A Rust `io::Error`: a kind together with its message. -/
structure IoError where
  kind : ErrorKind
  msg : String
deriving DecidableEq, Repr

/-! ## Version decoding (`src/media/mod.rs`, `impl From<u32> for Version`) -/

/-- Embeds `media::Version`: a MAJOR.MINOR.PATCH triple with `u8` components. -/
structure Version where
  major : Nat
  minor : Nat
  patch : Nat
deriving DecidableEq, Repr

/-- Embeds `impl From<u32> for Version`: `major = (v >> 16) & 0xff`,
`minor = (v >> 8) & 0xff`, `patch = v & 0xff`. -/
def Version.ofU32 (v : Nat) : Version :=
  { major := (v >>> 16) &&& 0xff
    minor := (v >>> 8) &&& 0xff
    patch := v &&& 0xff }

/-! ## Control values and `Device::set_controls` (`src/device.rs`) -/

/-- Modelled from the spec: the crate's `control` module (not under `src/`)
declares `ControlValue` as a discriminated union: None, Integer (64-bit
signed), Boolean, String, compound byte/word/double-word buffers, or an
opaque pointer-backed buffer.  Buffers are modelled by their element lists. -/
inductive Value where
  | None
  | Integer (val : Int)
  | Boolean (val : Bool)
  | String (val : List Nat)
  | CompoundU8 (val : List Nat)
  | CompoundU16 (val : List Nat)
  | CompoundU32 (val : List Nat)
  | CompoundPtr (val : List Nat)
deriving DecidableEq, Repr

/-- Modelled from the spec: a `Control` is a `(id, ControlValue)` pair sent to
or received from the device. -/
structure Control where
  id : Nat
  value : Value
deriving DecidableEq, Repr

/-- The wire struct `v4l2_ext_control` as filled in by `set_controls`: the
union is modelled by the 64-bit immediate payload (`value64`, zero when the
struct stays zeroed) plus, for the pointer-carrying variants, the contents
of the referenced buffer. -/
structure v4l2_ext_control where
  id : Nat
  size : Nat
  value64 : Int
  ptrBytes : List Nat
deriving DecidableEq, Repr

/-- The wire struct `v4l2_ext_controls` handed to `VIDIOC_S_EXT_CTRLS`:
`count`, the control array, and the `which` (control class) selector. -/
structure v4l2_ext_controls where
  count : Nat
  controls : List v4l2_ext_control
  which : Nat
deriving DecidableEq, Repr

/-- One iteration of the `for ref ctrl in ctrls` loop body of
`Device::set_controls`: build the zeroed `v4l2_ext_control`, set its `id`,
then fill payload and `size` according to the active `Value` variant. -/
def encode_control (ctrl : Control) : v4l2_ext_control :=
  let zeroed : v4l2_ext_control := { id := ctrl.id, size := 0, value64 := 0, ptrBytes := [] }
  match ctrl.value with
  | .None => zeroed
  | .Integer val => { zeroed with value64 := val, size := 0 }
  | .Boolean val => { zeroed with value64 := if val then 1 else 0, size := 0 }
  | .String val => { zeroed with ptrBytes := val, size := val.length }
  | .CompoundU8 val => { zeroed with ptrBytes := val, size := val.length * 1 }
  | .CompoundU16 val => { zeroed with ptrBytes := val, size := val.length * 2 }
  | .CompoundU32 val => { zeroed with ptrBytes := val, size := val.length * 4 }
  | .CompoundPtr val => { zeroed with ptrBytes := val, size := val.length * 1 }

/-- The loop of `Device::set_controls`: threads the `class : Option<u32>`
accumulator, rejecting any control whose `id & 0xFFFF0000` differs from the
class taken from the first control. -/
def set_controls_go : List Control → Option Nat → List v4l2_ext_control →
    Except IoError (List v4l2_ext_control × Option Nat)
  | [], cls, acc => .ok (acc, cls)
  | ctrl :: rest, cls, acc =>
    let control := encode_control ctrl
    match cls with
    | some c =>
      if c ≠ control.id &&& 0xFFFF0000 then
        .error ⟨.invalidInput, "All controls must be in the same class"⟩
      else
        set_controls_go rest (some c) (acc ++ [control])
    | none =>
      set_controls_go rest (some (control.id &&& 0xFFFF0000)) (acc ++ [control])

/-- The pure prefix of `Device::set_controls` up to (but excluding) the
`VIDIOC_S_EXT_CTRLS` ioctl: either an early error (empty batch, mixed
classes, undetermined class) or the fully assembled request struct that
would be submitted to the device. -/
def set_controls_request (ctrls : List Control) : Except IoError v4l2_ext_controls :=
  if ctrls.isEmpty then
    .error ⟨.invalidInput, "ctrls cannot be empty"⟩
  else
    match set_controls_go ctrls none [] with
    | .error e => .error e
    | .ok (control_list, cls) =>
      match cls with
      | none => .error ⟨.invalidInput, "failed to determine control class"⟩
      | some class_val =>
        .ok { count := control_list.length, controls := control_list, which := class_val }

/-- Embeds `Device::set_controls` in full: the assembled request is submitted to the
device oracle `drv` (the `VIDIOC_S_EXT_CTRLS` ioctl); every earlier error
path returns without any device interaction. -/
def set_controls (drv : v4l2_ext_controls → Except IoError Unit) (ctrls : List Control) :
    Except IoError Unit :=
  match set_controls_request ctrls with
  | .error e => .error e
  | .ok req => drv req

/-! ## Control descriptions and `Device::query_controls` (`src/device.rs`) -/

/-- Modelled from the spec: the crate's `control` module (not under `src/`)
declares the control-type enumeration `Type` (Integer, Integer64, Boolean,
Menu, IntegerMenu, String, CompoundU8/U16/U32, CompoundPtr, Class-marker). -/
inductive CtrlType where
  | Integer
  | Integer64
  | Boolean
  | Menu
  | IntegerMenu
  | CtrlString
  | CompoundU8
  | CompoundU16
  | CompoundU32
  | CompoundPtr
  | CtrlClass
deriving DecidableEq, Repr

/-- Modelled from the spec: a menu item is either a name (Menu controls) or a
64-bit integer value (IntegerMenu controls). -/
inductive MenuItem where
  | Name (s : String)
  | Value (v : Int)
deriving DecidableEq, Repr

/-- The driver-filled wire struct `v4l2_query_ext_ctrl`, restricted to the
fields `Device::query_controls` reads: `id` (u32), the control type,
`minimum`/`maximum` (i64) and `step` (u64), plus the name carried into the
description. -/
structure RawExtCtrl where
  id : Nat
  typ : CtrlType
  name : String
  minimum : Int
  maximum : Int
  step : Nat
deriving DecidableEq, Repr

/-- The driver-filled wire struct `v4l2_querymenu`, restricted to the union
read by `MenuItem::try_from`: the item name (Menu) or value (IntegerMenu). -/
structure RawMenu where
  name : String
  value : Int
deriving DecidableEq, Repr

/-- Modelled from the spec: `ControlDescription` identifies one configurable
parameter (`id`, `name`, `type`, `minimum`, `maximum`, `step`, and, only for
Menu/IntegerMenu kinds, an ordered list of `(index, MenuItem)` pairs).
`Description::from(v4l2_query_ext_ctrl)` copies the fields across. -/
structure Description where
  id : Nat
  name : String
  typ : CtrlType
  minimum : Int
  maximum : Int
  step : Nat
  items : Option (List (Nat × MenuItem))
deriving DecidableEq, Repr

/-- Embeds `Description::from(v4l2_query_ext_ctrl)`: the basic control information,
with no menu items yet. -/
def Description.ofRaw (raw : RawExtCtrl) : Description :=
  { id := raw.id, name := raw.name, typ := raw.typ, minimum := raw.minimum
    maximum := raw.maximum, step := raw.step, items := none }

/-- The kernel-side oracle for `Device::query_controls`: `extCtrl n` is the
driver's response to the n-th `VIDIOC_QUERY_EXT_CTRL` call (the source
carries the previous struct forward with the two NEXT flags ORed in, so the
call number determines the response); `menu id index` is the response to
`VIDIOC_QUERYMENU` for control `id` at item `index` (a u32). -/
structure QueryDriver where
  extCtrl : Nat → Except IoError RawExtCtrl
  menu : Nat → Nat → Except IoError RawMenu

/-- Rust `i as u32` on an `i64`: two's-complement truncation to 32 bits. -/
def intToU32 (i : Int) : Nat := (i % (2 ^ 32 : Int)).toNat

/-- The index sequence of Rust `(minimum..=maximum).step_by(step)` for a
positive `step`: `minimum, minimum + step, ...` while `≤ maximum`. -/
def menu_indices (minimum maximum : Int) (step : Nat) : List Int :=
  if maximum < minimum then []
  else (List.range ((maximum - minimum).toNat / step + 1)).map
    (fun (k : Nat) => minimum + (k : Int) * (step : Int))

/-- Embeds `MenuItem::try_from((typ, v4l2_menu)).unwrap()` for the two types that
reach it: a Menu control yields the item name, an IntegerMenu its value. -/
def menuItemOfRaw (typ : CtrlType) (m : RawMenu) : MenuItem :=
  match typ with
  | .Menu => .Name m.name
  | _ => .Value m.value

/-- The inner `for i in (minimum..=maximum).step_by(step)` loop of
`Device::query_controls`: query each index (passed as `i as u32`), skip an
index whose `VIDIOC_QUERYMENU` call errors, and collect `(index, item)`
pairs for the rest. -/
def enum_menu_items (drv : QueryDriver) (id : Nat) (typ : CtrlType)
    (minimum maximum : Int) (step : Nat) : List (Nat × MenuItem) :=
  (menu_indices minimum maximum step).filterMap (fun i =>
    match drv.menu id (intToU32 i) with
    | .error _ => none
    | .ok m => some (intToU32 i, menuItemOfRaw typ m))

/-- The observable outcome of `Device::query_controls`: a normal return, a
propagated `io::Error`, or a Rust panic (here: `step_by(0)`). -/
inductive QCOutcome where
  | ok (ctrls : List Description)
  | error (e : IoError)
  | panic (msg : String)
deriving DecidableEq, Repr

/-- The `loop` of `Device::query_controls`, recursing on an explicit fuel
bound (the source loop runs until the driver errors): on the n-th response,
an `Ok` raw control is converted to a `Description`, menu-typed controls get
their items enumerated (panicking like `step_by` does when `step == 0`), and
an `Err` either propagates (first response, or a kind other than
`InvalidInput`) or ends the enumeration normally. -/
def query_controls_go (drv : QueryDriver) : Nat → Nat → List Description → Option QCOutcome
  | 0, _, _ => none
  | fuel + 1, n, controls =>
    match drv.extCtrl n with
    | .ok raw =>
      let control := Description.ofRaw raw
      if control.typ = CtrlType.Menu ∨ control.typ = CtrlType.IntegerMenu then
        if raw.step = 0 then
          some (.panic "assertion failed: step != 0")
        else
          let items := enum_menu_items drv raw.id control.typ raw.minimum raw.maximum raw.step
          query_controls_go drv fuel (n + 1) (controls ++ [{ control with items := some items }])
      else
        query_controls_go drv fuel (n + 1) (controls ++ [control])
    | .error e =>
      if controls.isEmpty ∨ e.kind ≠ ErrorKind.invalidInput then
        some (.error e)
      else
        some (.ok controls)

/-- Embeds `Device::query_controls`, with a fuel bound on the number of
`VIDIOC_QUERY_EXT_CTRL` round trips; `none` means the loop was still running
when the fuel ran out. -/
def query_controls (drv : QueryDriver) (fuel : Nat) : Option QCOutcome :=
  query_controls_go drv fuel 0 []

/-! ## `Device::control` (`src/device.rs`) -/

/-- Little-endian two's-complement read of a `w`-bit signed integer from the
low `w` bits of a bit pattern. -/
def signedOfBits (w : Nat) (bits : Nat) : Int :=
  let low := bits % 2 ^ w
  if low < 2 ^ (w - 1) then (low : Int) else (low : Int) - (2 ^ w : Int)

/-- The kernel-side oracle for `VIDIOC_G_EXT_CTRLS` on a single control: for
a control id, either an error or the 64 bits the driver leaves in the
`v4l2_ext_control` value union (read as `value64` for 64-bit controls and as
the low-word `value` for 32-bit ones). -/
def GetCtrlDriver : Type := Nat → Except IoError Nat

/-- Embeds `Device::control(desc)`: query the value for `desc.id` and interpret the
returned union according to `desc.typ`; any type other than Integer64,
Integer, Menu or Boolean fails with the "cannot handle control type" error. -/
def Device.control (drv : GetCtrlDriver) (desc : Description) : Except IoError Control :=
  match drv desc.id with
  | .error e => .error e
  | .ok bits =>
    match desc.typ with
    | .Integer64 => .ok { id := desc.id, value := .Integer (signedOfBits 64 bits) }
    | .Integer => .ok { id := desc.id, value := .Integer (signedOfBits 32 bits) }
    | .Menu => .ok { id := desc.id, value := .Integer (signedOfBits 32 bits) }
    | .Boolean => .ok { id := desc.id, value := .Boolean (signedOfBits 32 bits = 1) }
    | _ => .error ⟨.other, "cannot handle control type"⟩

/-! ## `Device::enum_inputs` / `Device::enum_outputs` (`src/device.rs`) -/

/-- The driver-filled wire struct `v4l2_input`: the probed `index` plus the
remaining driver-written fields (name, type, status, ...) collapsed into one
opaque payload. -/
structure v4l2_input where
  index : Nat
  payload : Nat
deriving DecidableEq, Repr

/-- The driver-filled wire struct `v4l2_output`, collapsed like
`v4l2_input`. -/
structure v4l2_output where
  index : Nat
  payload : Nat
deriving DecidableEq, Repr

/-- Embeds `Device::enum_inputs`: probe indices 0, 1, ... with `VIDIOC_ENUMINPUT`
(oracle `drv`); the `scan` iterator ends at the first `InvalidInput`
response, and `collect::<io::Result<Vec<_>>>` short-circuits on any other
error.  Fuel bounds the unbounded `(0..)` range; `none` means the loop was
still probing when the fuel ran out. -/
def enum_inputs_go (drv : Nat → Except IoError v4l2_input) :
    Nat → Nat → Option (Except IoError (List v4l2_input))
  | 0, _ => none
  | fuel + 1, index =>
    match drv index with
    | .ok input =>
      match enum_inputs_go drv fuel (index + 1) with
      | none => none
      | some (.error e) => some (.error e)
      | some (.ok rest) => some (.ok (input :: rest))
    | .error e =>
      if e.kind = ErrorKind.invalidInput then some (.ok [])
      else some (.error e)

/-- Embeds `Device::enum_inputs` from index 0. -/
def enum_inputs (drv : Nat → Except IoError v4l2_input) (fuel : Nat) :
    Option (Except IoError (List v4l2_input)) :=
  enum_inputs_go drv fuel 0

/-- Embeds `Device::enum_outputs`: identical structure over `VIDIOC_ENUMOUTPUT`. -/
def enum_outputs_go (drv : Nat → Except IoError v4l2_output) :
    Nat → Nat → Option (Except IoError (List v4l2_output))
  | 0, _ => none
  | fuel + 1, index =>
    match drv index with
    | .ok output =>
      match enum_outputs_go drv fuel (index + 1) with
      | none => none
      | some (.error e) => some (.error e)
      | some (.ok rest) => some (.ok (output :: rest))
    | .error e =>
      if e.kind = ErrorKind.invalidInput then some (.ok [])
      else some (.error e)

/-- Embeds `Device::enum_outputs` from index 0. -/
def enum_outputs (drv : Nat → Except IoError v4l2_output) (fuel : Nat) :
    Option (Except IoError (List v4l2_output)) :=
  enum_outputs_go drv fuel 0

/-! ## Media links and `media::Device::setup_link` (`src/media/{link,device}.rs`) -/

/-- Constant `MEDIA_LNK_FL_ENABLED` (kernel uapi value 1). -/
def MEDIA_LNK_FL_ENABLED : Nat := 1

/-- Constant `MEDIA_LNK_FL_IMMUTABLE` (kernel uapi value 2). -/
def MEDIA_LNK_FL_IMMUTABLE : Nat := 2

/-- Constant `MEDIA_LNK_FL_DYNAMIC` (kernel uapi value 4). -/
def MEDIA_LNK_FL_DYNAMIC : Nat := 4

/-- Embeds `media::Pad`: a non-owning back-reference to its entity, the pad index
and the pad flag bits. -/
structure MediaPad where
  entity : Nat
  index : Nat
  flags : Nat
deriving DecidableEq, Repr

/-- Embeds `media::Link`: one source pad, one sink pad and the `LinkFlags` bits. -/
structure MediaLink where
  source : MediaPad
  sink : MediaPad
  flags : Nat
deriving DecidableEq, Repr

/-- Embeds the `bitflags` `contains` test: all bits of `mask` are set in `flags`. -/
def flags_contains (flags mask : Nat) : Bool := flags &&& mask == mask

/-- Embeds the `bitflags` `set` operation: insert `mask` when `b`, otherwise remove it (u32
complement). -/
def flags_set (flags mask : Nat) (b : Bool) : Nat :=
  if b then flags ||| mask else flags &&& (0xFFFFFFFF ^^^ mask)

/-- Modelled from the spec: the `Link → media_link_desc` conversion used by
`setup_link` is declared outside `src/`; the wire struct carries the two pad
descriptors and the flag bits field-for-field. -/
structure media_link_desc where
  source_entity : Nat
  source_index : Nat
  source_flags : Nat
  sink_entity : Nat
  sink_index : Nat
  sink_flags : Nat
  flags : Nat
deriving DecidableEq, Repr

/-- The field-for-field `Link → media_link_desc` conversion. -/
def linkDescOf (link : MediaLink) : media_link_desc :=
  { source_entity := link.source.entity, source_index := link.source.index
    source_flags := link.source.flags, sink_entity := link.sink.entity
    sink_index := link.sink.index, sink_flags := link.sink.flags
    flags := link.flags }

deriving instance DecidableEq for Except

/-- The observable outcome of `media::Device::setup_link`: either the
`assert!` panic (no ioctl was issued), or the `MEDIA_IOC_SETUP_LINK` request
that reached the device together with the device's response. -/
inductive SetupLinkOutcome where
  | panic (msg : String)
  | ioctl (request : media_link_desc) (result : Except IoError Unit)
deriving DecidableEq, Repr

/-- Embeds `media::Device::setup_link(link, enabled)`: assert the link is not
Immutable (panicking otherwise, before any device request), set or clear the
Enabled bit, convert to the wire struct and submit it to the device oracle. -/
def setup_link (drv : media_link_desc → Except IoError Unit) (link : MediaLink)
    (enabled : Bool) : SetupLinkOutcome :=
  if flags_contains link.flags MEDIA_LNK_FL_IMMUTABLE then
    .panic "Only mutable links can be modified"
  else
    let link' : MediaLink := { link with flags := flags_set link.flags MEDIA_LNK_FL_ENABLED enabled }
    let desc := linkDescOf link'
    .ioctl desc (drv desc)

/-! ## Handle lifecycle (`src/device.rs`, `Handle` and `impl Drop`) -/

/-- What `impl Drop for Handle` does with the result of `v4l2::close(fd)`:
`.unwrap()` panics on failure instead of swallowing it. -/
inductive DropOutcome where
  | normal
  | panic (msg : String)
deriving DecidableEq, Repr

/-- Embeds `Handle::drop`: `v4l2::close(self.fd).unwrap()`. -/
def handle_drop_close (closeResult : Except IoError Unit) : DropOutcome :=
  match closeResult with
  | .ok _ => .normal
  | .error _ => .panic "called Result::unwrap on an Err value"

/-- Modelled from the spec: a `Handle` is exclusively owned but shared
through a reference count (`Arc<Handle>` in the source); the observable
events on one handle after construction are clones (count + 1) and drops
(count - 1, running `Handle::drop` — one `close(fd)` — exactly when the last
reference disappears). -/
inductive HandleOp where
  | clone
  | drop
deriving DecidableEq, Repr

/-- The shared-handle state: the live reference count, how many `close(fd)`
calls have been issued, and whether the OS descriptor is still open. -/
structure HandleState where
  refcount : Nat
  closes : Nat
  fdOpen : Bool
deriving DecidableEq, Repr

/-- The state right after `Handle::new(fd)` is wrapped in its first owning
reference: one reference, no close issued, descriptor open. -/
def HandleState.initial : HandleState := { refcount := 1, closes := 0, fdOpen := true }

/-- One ownership event: a clone bumps the count; a drop decrements it and,
exactly when it was the last reference, runs `Handle::drop`, closing the
descriptor. -/
def HandleState.step (s : HandleState) : HandleOp → HandleState
  | .clone => { s with refcount := s.refcount + 1 }
  | .drop =>
    if s.refcount = 1 then { refcount := 0, closes := s.closes + 1, fdOpen := false }
    else { s with refcount := s.refcount - 1 }

/-- Run a sequence of ownership events. -/
def HandleState.run (s : HandleState) (ops : List HandleOp) : HandleState :=
  ops.foldl HandleState.step s

/-- An event sequence is live-valid while every event finds at least one
owning reference alive (Rust's ownership discipline: you can only clone or
drop a reference you hold). -/
def validOps (s : HandleState) : List HandleOp → Prop
  | [] => True
  | op :: rest => 0 < s.refcount ∧ validOps (s.step op) rest

/-! ## Supporting lemmas -/

lemma and_ff_eq_mod (x : Nat) : x &&& 255 = x % 256 := by
  have h := Nat.and_pow_two_sub_one_eq_mod x 8
  norm_num at h
  exact h

lemma encode_control_id (c : Control) : (encode_control c).id = c.id := by
  cases c with
  | mk id value => cases value <;> rfl

lemma set_controls_go_ok (c : Nat) :
    ∀ (l : List Control) (acc : List v4l2_ext_control),
      (∀ x ∈ l, x.id &&& 0xFFFF0000 = c) →
      set_controls_go l (some c) acc = .ok (acc ++ l.map encode_control, some c) := by
  intro l
  induction l with
  | nil => intro acc _; simp [set_controls_go]
  | cons x rest ih =>
    intro acc h
    have hx : x.id &&& 0xFFFF0000 = c := h x (List.mem_cons_self x rest)
    have hne : ¬(c ≠ (encode_control x).id &&& 0xFFFF0000) := by
      simp [encode_control_id, hx]
    have hrest : ∀ y ∈ rest, y.id &&& 0xFFFF0000 = c := fun y hy =>
      h y (List.mem_cons_of_mem x hy)
    simp only [set_controls_go, if_neg hne]
    rw [ih (acc ++ [encode_control x]) hrest]
    simp

lemma set_controls_go_mixed (c : Nat) :
    ∀ (l : List Control) (acc : List v4l2_ext_control),
      (∃ x ∈ l, x.id &&& 0xFFFF0000 ≠ c) →
      ∃ e, set_controls_go l (some c) acc = .error e ∧ e.kind = .invalidInput := by
  intro l
  induction l with
  | nil =>
    rintro acc ⟨x, hx, -⟩
    exact absurd hx (List.not_mem_nil x)
  | cons x rest ih =>
    rintro acc ⟨w, hw, hwc⟩
    by_cases hx : x.id &&& 0xFFFF0000 = c
    · have hwrest : w ∈ rest := by
        rcases List.mem_cons.mp hw with hwx | hwr
        · exact absurd (hwx ▸ hx) hwc
        · exact hwr
      have hne : ¬(c ≠ (encode_control x).id &&& 0xFFFF0000) := by
        simp [encode_control_id, hx]
      simp only [set_controls_go, if_neg hne]
      exact ih (acc ++ [encode_control x]) ⟨w, hwrest, hwc⟩
    · refine ⟨⟨.invalidInput, "All controls must be in the same class"⟩, ?_, rfl⟩
      have hne : c ≠ (encode_control x).id &&& 0xFFFF0000 := by
        rw [encode_control_id]
        exact fun hc => hx hc.symm
      simp only [set_controls_go, if_pos hne]

/-! ## Claim theorems -/

/-- C8: for every 32-bit packed version field `v`, the decoded `Version` has
`major` = bits 16-23 of `v`, `minor` = bits 8-15, `patch` = bits 0-7; in
particular decoding 0x00050102 yields major 5, minor 1, patch 2. -/
theorem version_ofU32_spec (v : Nat) :
    (Version.ofU32 v).major = v / 2 ^ 16 % 2 ^ 8 ∧
    (Version.ofU32 v).minor = v / 2 ^ 8 % 2 ^ 8 ∧
    (Version.ofU32 v).patch = v % 2 ^ 8 ∧
    Version.ofU32 0x00050102 = ⟨5, 1, 2⟩ := by
  refine ⟨?_, ?_, ?_, by decide⟩ <;>
    simp [Version.ofU32, Nat.shiftRight_eq_div_pow, and_ff_eq_mod]

/-- C7: for every link whose flags include Immutable and for both values of
the `enabled` argument, `setup_link` panics on the precondition `assert!`
before issuing any device request — the outcome is the panic, carries no
request, and is the same for every device oracle. -/
theorem setup_link_immutable_rejects (drv : media_link_desc → Except IoError Unit)
    (link : MediaLink) (enabled : Bool)
    (h : flags_contains link.flags MEDIA_LNK_FL_IMMUTABLE = true) :
    setup_link drv link enabled = .panic "Only mutable links can be modified" := by
  simp [setup_link, h]

/-- Witness for C7 at a concrete Immutable link, for both `enabled` values. -/
theorem setup_link_immutable_rejects_witness :
    flags_contains 3 MEDIA_LNK_FL_IMMUTABLE = true ∧
    setup_link (fun _ => .ok ()) ⟨⟨1, 0, 0⟩, ⟨2, 0, 0⟩, 3⟩ true
      = .panic "Only mutable links can be modified" ∧
    setup_link (fun _ => .ok ()) ⟨⟨1, 0, 0⟩, ⟨2, 0, 0⟩, 3⟩ false
      = .panic "Only mutable links can be modified" :=
  ⟨by decide,
   setup_link_immutable_rejects (fun _ => .ok ()) ⟨⟨1, 0, 0⟩, ⟨2, 0, 0⟩, 3⟩ true (by decide),
   setup_link_immutable_rejects (fun _ => .ok ()) ⟨⟨1, 0, 0⟩, ⟨2, 0, 0⟩, 3⟩ false (by decide)⟩

/-- C1: `set_controls` on an empty list fails with InvalidArgument for every
device oracle (no device interaction); on a list containing two controls of
different classes (top 16 bits of the id) it fails with InvalidArgument for
every device oracle; on a non-empty single-class list the assembled request's
`which` field equals the first control's `id &&& 0xFFFF0000`. -/
theorem set_controls_class_spec :
    (∀ drv, set_controls drv [] = .error ⟨.invalidInput, "ctrls cannot be empty"⟩) ∧
    (∀ drv ctrls, (∃ a ∈ ctrls, ∃ b ∈ ctrls, a.id &&& 0xFFFF0000 ≠ b.id &&& 0xFFFF0000) →
      ∃ e, set_controls drv ctrls = .error e ∧ e.kind = .invalidInput) ∧
    (∀ (first : Control) (rest : List Control),
      (∀ c ∈ first :: rest, c.id &&& 0xFFFF0000 = first.id &&& 0xFFFF0000) →
      ∃ req, set_controls_request (first :: rest) = .ok req ∧
        req.which = first.id &&& 0xFFFF0000) := by
  refine ⟨fun drv => rfl, ?_, ?_⟩
  · rintro drv ctrls ⟨a, ha, b, hb, hab⟩
    match ctrls, ha with
    | first :: rest, ha =>
      set c := first.id &&& 0xFFFF0000 with hc
      obtain ⟨w, hw, hwc⟩ : ∃ w ∈ first :: rest, w.id &&& 0xFFFF0000 ≠ c := by
        by_cases hac : a.id &&& 0xFFFF0000 = c
        · exact ⟨b, hb, fun hbc => hab (hac.trans hbc.symm)⟩
        · exact ⟨a, ha, hac⟩
      have hwrest : w ∈ rest := by
        rcases List.mem_cons.mp hw with hwx | hwr
        · exact absurd (hwx ▸ rfl) hwc
        · exact hwr
      obtain ⟨e, hgo, hkind⟩ :=
        set_controls_go_mixed c rest [encode_control first] ⟨w, hwrest, hwc⟩
      refine ⟨e, ?_, hkind⟩
      have hstep : set_controls_go (first :: rest) none []
          = set_controls_go rest (some c) [encode_control first] := by
        simp [set_controls_go, encode_control_id, hc]
      simp [set_controls, set_controls_request, hstep, hgo]
  · intro first rest hsame
    set c := first.id &&& 0xFFFF0000 with hc
    have hrest : ∀ y ∈ rest, y.id &&& 0xFFFF0000 = c := fun y hy =>
      hsame y (List.mem_cons_of_mem first hy)
    have hstep : set_controls_go (first :: rest) none []
        = set_controls_go rest (some c) [encode_control first] := by
      simp [set_controls_go, encode_control_id, hc]
    have hgo := set_controls_go_ok c rest [encode_control first] hrest
    refine ⟨{ count := ([encode_control first] ++ rest.map encode_control).length,
              controls := [encode_control first] ++ rest.map encode_control,
              which := c }, ?_, rfl⟩
    simp [set_controls_request, hstep, hgo]

/-- Witness for C1: a concrete mixed-class batch fails with InvalidArgument
and a concrete single-class batch is submitted with `which` equal to the
first id's class bits. -/
theorem set_controls_class_spec_witness :
    (∃ e, set_controls (fun _ => .ok ()) [⟨0x00980001, .None⟩, ⟨0x009A0001, .None⟩]
        = .error e ∧ e.kind = .invalidInput) ∧
    (∃ req, set_controls_request [⟨0x00980001, .Integer 3⟩, ⟨0x00980002, .None⟩]
        = .ok req ∧ req.which = 0x00980001 &&& 0xFFFF0000) :=
  ⟨set_controls_class_spec.2.1 (fun _ => .ok ())
      [⟨0x00980001, .None⟩, ⟨0x009A0001, .None⟩]
      ⟨⟨0x00980001, .None⟩, by decide, ⟨0x009A0001, .None⟩, by decide, by decide⟩,
   set_controls_class_spec.2.2 ⟨0x00980001, .Integer 3⟩ [⟨0x00980002, .None⟩] (by decide)⟩

lemma signedOfBits32_eq_one_iff (bits : Nat) :
    (signedOfBits 32 bits = 1) ↔ bits % 2 ^ 32 = 1 := by
  simp only [signedOfBits]
  norm_num
  split <;> omega

/-- C5: for every successful device response, `Device::control` interprets
the returned union by `desc.typ`: Integer64 reads the 64-bit value; Integer
and Menu read the 32-bit value sign-extended to 64 bits; Boolean is true iff
the raw 32-bit value equals 1; every other declared type fails with the
"cannot handle control type" error. -/
theorem control_interpretation_spec (drv : GetCtrlDriver) (desc : Description) (bits : Nat)
    (h : drv desc.id = .ok bits) :
    (desc.typ = .Integer64 → Device.control drv desc
        = .ok { id := desc.id, value := .Integer (signedOfBits 64 bits) }) ∧
    (desc.typ = .Integer → Device.control drv desc
        = .ok { id := desc.id, value := .Integer (signedOfBits 32 bits) }) ∧
    (desc.typ = .Menu → Device.control drv desc
        = .ok { id := desc.id, value := .Integer (signedOfBits 32 bits) }) ∧
    (desc.typ = .Boolean → ∃ b, Device.control drv desc
        = .ok { id := desc.id, value := .Boolean b } ∧ (b = true ↔ bits % 2 ^ 32 = 1)) ∧
    (desc.typ ≠ .Integer64 → desc.typ ≠ .Integer → desc.typ ≠ .Menu → desc.typ ≠ .Boolean →
      Device.control drv desc = .error ⟨.other, "cannot handle control type"⟩) := by
  refine ⟨fun ht => by simp [Device.control, h, ht],
          fun ht => by simp [Device.control, h, ht],
          fun ht => by simp [Device.control, h, ht],
          fun ht => ⟨decide (signedOfBits 32 bits = 1), by simp [Device.control, h, ht],
            by rw [decide_eq_true_iff]; exact signedOfBits32_eq_one_iff bits⟩,
          fun h64 hi hm hb => ?_⟩
  cases ht : desc.typ <;> simp_all [Device.control, h]

/-- Witness for C5: a Boolean-typed control whose raw value is 2 comes back
as `false` (2 is not 1). -/
theorem control_interpretation_spec_witness :
    ∃ b, Device.control (fun _ => .ok 2) ⟨0x00980900, "brightness", .Boolean, 0, 1, 1, none⟩
        = .ok { id := 0x00980900, value := .Boolean b } ∧ (b = true ↔ 2 % 2 ^ 32 = 1) :=
  (control_interpretation_spec (fun _ => .ok 2)
    ⟨0x00980900, "brightness", .Boolean, 0, 1, 1, none⟩ 2 rfl).2.2.2.1 rfl

lemma enum_inputs_go_ok (drv : Nat → Except IoError v4l2_input) (inp : Nat → v4l2_input)
    (N : Nat) (e : IoError)
    (hok : ∀ i < N, drv i = .ok (inp i)) (herr : drv N = .error e)
    (hkind : e.kind = .invalidInput) :
    ∀ fuel idx, idx ≤ N → N - idx < fuel →
      enum_inputs_go drv fuel idx = some (.ok ((List.range' idx (N - idx)).map inp)) := by
  intro fuel
  induction fuel with
  | zero => intro idx _ h; omega
  | succ fuel ih =>
    intro idx hle hf
    by_cases hidx : idx = N
    · subst hidx
      simp [enum_inputs_go, herr, hkind]
    · have hlt : idx < N := lt_of_le_of_ne hle hidx
      have h1 : drv idx = .ok (inp idx) := hok idx hlt
      have h2 := ih (idx + 1) hlt (by omega)
      have hrange : List.range' idx (N - idx) = idx :: List.range' (idx + 1) (N - (idx + 1)) := by
        have hsplit : N - idx = (N - (idx + 1)) + 1 := by omega
        rw [hsplit, List.range'_succ]
      simp [enum_inputs_go, h1, h2, hrange]

lemma enum_inputs_go_err (drv : Nat → Except IoError v4l2_input) (inp : Nat → v4l2_input)
    (k : Nat) (e : IoError)
    (hok : ∀ i < k, drv i = .ok (inp i)) (herr : drv k = .error e)
    (hkind : e.kind ≠ .invalidInput) :
    ∀ fuel idx, idx ≤ k → k - idx < fuel →
      enum_inputs_go drv fuel idx = some (.error e) := by
  intro fuel
  induction fuel with
  | zero => intro idx _ h; omega
  | succ fuel ih =>
    intro idx hle hf
    by_cases hidx : idx = k
    · subst hidx
      simp [enum_inputs_go, herr, hkind]
    · have hlt : idx < k := lt_of_le_of_ne hle hidx
      have h1 : drv idx = .ok (inp idx) := hok idx hlt
      have h2 := ih (idx + 1) hlt (by omega)
      simp [enum_inputs_go, h1, h2]

lemma enum_outputs_go_ok (drv : Nat → Except IoError v4l2_output) (out : Nat → v4l2_output)
    (N : Nat) (e : IoError)
    (hok : ∀ i < N, drv i = .ok (out i)) (herr : drv N = .error e)
    (hkind : e.kind = .invalidInput) :
    ∀ fuel idx, idx ≤ N → N - idx < fuel →
      enum_outputs_go drv fuel idx = some (.ok ((List.range' idx (N - idx)).map out)) := by
  intro fuel
  induction fuel with
  | zero => intro idx _ h; omega
  | succ fuel ih =>
    intro idx hle hf
    by_cases hidx : idx = N
    · subst hidx
      simp [enum_outputs_go, herr, hkind]
    · have hlt : idx < N := lt_of_le_of_ne hle hidx
      have h1 : drv idx = .ok (out idx) := hok idx hlt
      have h2 := ih (idx + 1) hlt (by omega)
      have hrange : List.range' idx (N - idx) = idx :: List.range' (idx + 1) (N - (idx + 1)) := by
        have hsplit : N - idx = (N - (idx + 1)) + 1 := by omega
        rw [hsplit, List.range'_succ]
      simp [enum_outputs_go, h1, h2, hrange]

lemma enum_outputs_go_err (drv : Nat → Except IoError v4l2_output) (out : Nat → v4l2_output)
    (k : Nat) (e : IoError)
    (hok : ∀ i < k, drv i = .ok (out i)) (herr : drv k = .error e)
    (hkind : e.kind ≠ .invalidInput) :
    ∀ fuel idx, idx ≤ k → k - idx < fuel →
      enum_outputs_go drv fuel idx = some (.error e) := by
  intro fuel
  induction fuel with
  | zero => intro idx _ h; omega
  | succ fuel ih =>
    intro idx hle hf
    by_cases hidx : idx = k
    · subst hidx
      simp [enum_outputs_go, herr, hkind]
    · have hlt : idx < k := lt_of_le_of_ne hle hidx
      have h1 : drv idx = .ok (out idx) := hok idx hlt
      have h2 := ih (idx + 1) hlt (by omega)
      simp [enum_outputs_go, h1, h2]

/-- C6: `enum_inputs` (and symmetrically `enum_outputs`) on a device whose
driver answers indices `0..N-1` and rejects index `N` with InvalidArgument
returns exactly those entries in ascending index order — including the N = 0
empty list — and any error of another kind at any probed index is propagated
immediately with every already-collected entry discarded. -/
theorem enum_io_sentinel_spec :
    (∀ (drv : Nat → Except IoError v4l2_input) (inp : Nat → v4l2_input) (N fuel : Nat)
        (e : IoError),
      (∀ i < N, drv i = .ok (inp i)) → drv N = .error e → e.kind = .invalidInput → N < fuel →
      enum_inputs drv fuel = some (.ok ((List.range N).map inp))) ∧
    (∀ (drv : Nat → Except IoError v4l2_input) (inp : Nat → v4l2_input) (k fuel : Nat)
        (e : IoError),
      (∀ i < k, drv i = .ok (inp i)) → drv k = .error e → e.kind ≠ .invalidInput → k < fuel →
      enum_inputs drv fuel = some (.error e)) ∧
    (∀ (drv : Nat → Except IoError v4l2_output) (out : Nat → v4l2_output) (N fuel : Nat)
        (e : IoError),
      (∀ i < N, drv i = .ok (out i)) → drv N = .error e → e.kind = .invalidInput → N < fuel →
      enum_outputs drv fuel = some (.ok ((List.range N).map out))) ∧
    (∀ (drv : Nat → Except IoError v4l2_output) (out : Nat → v4l2_output) (k fuel : Nat)
        (e : IoError),
      (∀ i < k, drv i = .ok (out i)) → drv k = .error e → e.kind ≠ .invalidInput → k < fuel →
      enum_outputs drv fuel = some (.error e)) := by
  refine ⟨?_, ?_, ?_, ?_⟩
  · intro drv inp N fuel e hok herr hkind hfuel
    have h := enum_inputs_go_ok drv inp N e hok herr hkind fuel 0 (Nat.zero_le N) (by omega)
    rwa [Nat.sub_zero, ← List.range_eq_range'] at h
  · intro drv inp k fuel e hok herr hkind hfuel
    exact enum_inputs_go_err drv inp k e hok herr hkind fuel 0 (Nat.zero_le k) (by omega)
  · intro drv out N fuel e hok herr hkind hfuel
    have h := enum_outputs_go_ok drv out N e hok herr hkind fuel 0 (Nat.zero_le N) (by omega)
    rwa [Nat.sub_zero, ← List.range_eq_range'] at h
  · intro drv out k fuel e hok herr hkind hfuel
    exact enum_outputs_go_err drv out k e hok herr hkind fuel 0 (Nat.zero_le k) (by omega)

/-- Witness for C6: a two-input device, a zero-input device and an output
device that fails hard at index 1. -/
theorem enum_io_sentinel_spec_witness :
    enum_inputs (fun i => if i < 2 then .ok ⟨i, 7⟩ else .error ⟨.invalidInput, "end"⟩) 3
      = some (.ok ((List.range 2).map (fun i => ⟨i, 7⟩))) ∧
    enum_inputs (fun _ => .error ⟨.invalidInput, "end"⟩) 1
      = some (.ok ((List.range 0).map (fun i => (⟨i, 7⟩ : v4l2_input)))) ∧
    enum_outputs (fun i => if i = 0 then .ok ⟨0, 7⟩ else .error ⟨.busy, "busy"⟩) 2
      = some (.error ⟨.busy, "busy"⟩) :=
  ⟨enum_io_sentinel_spec.1 (fun i => if i < 2 then .ok ⟨i, 7⟩ else .error ⟨.invalidInput, "end"⟩)
      (fun i => ⟨i, 7⟩) 2 3 ⟨.invalidInput, "end"⟩ (by decide) (by decide) rfl (by decide),
   enum_io_sentinel_spec.1 (fun _ => .error ⟨.invalidInput, "end"⟩)
      (fun i => ⟨i, 7⟩) 0 1 ⟨.invalidInput, "end"⟩ (by decide) rfl rfl (by decide),
   enum_io_sentinel_spec.2.2.2 (fun i => if i = 0 then .ok ⟨0, 7⟩ else .error ⟨.busy, "busy"⟩)
      (fun _ => ⟨0, 7⟩) 1 2 ⟨.busy, "busy"⟩ (by decide) (by decide) (by decide) (by decide)⟩

/-- The description `query_controls` pushes for the raw control `raw`: the
basic description, with the enumerated menu items filled in for Menu /
IntegerMenu controls. -/
def describe_ctrl (drv : QueryDriver) (raw : RawExtCtrl) : Description :=
  if raw.typ = CtrlType.Menu ∨ raw.typ = CtrlType.IntegerMenu then
    { Description.ofRaw raw with
        items := some (enum_menu_items drv raw.id raw.typ raw.minimum raw.maximum raw.step) }
  else
    Description.ofRaw raw

/-- The driver answers the first `n` control queries with the raw controls
`raws 0 .. raws (n-1)`, none of which is a zero-step menu control (whose
enumeration would panic). -/
def okLeadingRun (drv : QueryDriver) (raws : Nat → RawExtCtrl) (n : Nat) : Prop :=
  ∀ k < n, drv.extCtrl k = .ok (raws k) ∧
    ((raws k).typ = CtrlType.Menu ∨ (raws k).typ = CtrlType.IntegerMenu → (raws k).step ≠ 0)

lemma query_go_advance (drv : QueryDriver) (raws : Nat → RawExtCtrl) (n : Nat)
    (hpre : okLeadingRun drv raws n) :
    ∀ fuel m acc, m ≤ n → n - m ≤ fuel →
      query_controls_go drv fuel m acc
        = query_controls_go drv (fuel - (n - m)) n
            (acc ++ (List.range' m (n - m)).map (fun k => describe_ctrl drv (raws k))) := by
  intro fuel
  induction fuel with
  | zero =>
    intro m acc hm hf
    have hmn : m = n := by omega
    subst hmn
    simp
  | succ fuel ih =>
    intro m acc hm hf
    by_cases hmn : m = n
    · subst hmn; simp
    · have hlt : m < n := lt_of_le_of_ne hm hmn
      obtain ⟨hok, hguard⟩ := hpre m hlt
      have harith : fuel + 1 - (n - m) = fuel - (n - (m + 1)) := by omega
      have hrange : List.range' m (n - m) = m :: List.range' (m + 1) (n - (m + 1)) := by
        have hsplit : n - m = (n - (m + 1)) + 1 := by omega
        rw [hsplit, List.range'_succ]
      by_cases hmenu : (raws m).typ = CtrlType.Menu ∨ (raws m).typ = CtrlType.IntegerMenu
      · have hstep : ¬((raws m).step = 0) := hguard hmenu
        have hstep1 : query_controls_go drv (fuel + 1) m acc
            = query_controls_go drv fuel (m + 1)
                (acc ++ [describe_ctrl drv (raws m)]) := by
          simp only [query_controls_go, hok]
          rw [if_pos (by simpa [Description.ofRaw] using hmenu), if_neg hstep]
          simp [describe_ctrl, hmenu, Description.ofRaw]
        rw [hstep1, ih (m + 1) (acc ++ [describe_ctrl drv (raws m)]) hlt (by omega),
          harith, hrange]
        simp
      · have hstep1 : query_controls_go drv (fuel + 1) m acc
            = query_controls_go drv fuel (m + 1)
                (acc ++ [describe_ctrl drv (raws m)]) := by
          simp only [query_controls_go, hok]
          rw [if_neg (by simpa [Description.ofRaw] using hmenu)]
          simp [describe_ctrl, hmenu]
        rw [hstep1, ih (m + 1) (acc ++ [describe_ctrl drv (raws m)]) hlt (by omega),
          harith, hrange]
        simp

/-- C2: with `n` well-formed controls answered first, `query_controls`
returns the collected list when the driver reports InvalidArgument after at
least one control; propagates an InvalidArgument response to the very first
query; and propagates an error of any other kind at any position. -/
theorem query_controls_termination_spec (drv : QueryDriver) (raws : Nat → RawExtCtrl)
    (n : Nat) (e : IoError) (fuel : Nat)
    (hpre : okLeadingRun drv raws n) (herr : drv.extCtrl n = .error e) (hfuel : n < fuel) :
    (0 < n → e.kind = .invalidInput →
      query_controls drv fuel
        = some (.ok ((List.range n).map (fun k => describe_ctrl drv (raws k))))) ∧
    (n = 0 → query_controls drv fuel = some (.error e)) ∧
    (e.kind ≠ .invalidInput → query_controls drv fuel = some (.error e)) := by
  have hstep := query_go_advance drv raws n hpre fuel 0 [] (Nat.zero_le n) (by omega)
  rw [Nat.sub_zero, List.nil_append, ← List.range_eq_range'] at hstep
  obtain ⟨f, hf⟩ : ∃ f, fuel - n = f + 1 := ⟨fuel - n - 1, by omega⟩
  rw [hf] at hstep
  refine ⟨?_, ?_, ?_⟩
  · intro hn hkind
    rw [query_controls, hstep]
    have hne : ¬(((List.range n).map (fun k => describe_ctrl drv (raws k))).isEmpty
        ∨ e.kind ≠ ErrorKind.invalidInput) := by
      simp [List.isEmpty_iff, List.range_eq_nil, hkind]
      omega
    simp [query_controls_go, herr, hne]
    exact ⟨by omega, hkind⟩
  · intro hn
    subst hn
    rw [query_controls, hstep]
    simp [query_controls_go, herr]
  · intro hkind
    rw [query_controls, hstep]
    simp [query_controls_go, herr, hkind]

/-- A one-control driver: the first query yields an Integer control, every
later query answers InvalidArgument. -/
def qdrvA : QueryDriver :=
  ⟨fun k => if k = 0 then .ok ⟨1, .Integer, "c", 0, 3, 1⟩ else .error ⟨.invalidInput, "done"⟩,
   fun _ _ => .error ⟨.invalidInput, "m"⟩⟩

/-- The raw controls `qdrvA` serves. -/
def rawsA : Nat → RawExtCtrl := fun _ => ⟨1, .Integer, "c", 0, 3, 1⟩

/-- Witness for C2: on `qdrvA` the enumeration terminates normally with the
one collected control. -/
theorem query_controls_termination_spec_witness :
    query_controls qdrvA 2
      = some (.ok ((List.range 1).map (fun k => describe_ctrl qdrvA (rawsA k)))) :=
  (query_controls_termination_spec qdrvA rawsA 1 ⟨.invalidInput, "done"⟩ 2
    (by unfold okLeadingRun; decide) rfl (by decide)).1 (by decide) rfl

/-- A driver exposing zero controls: every query, including the first,
answers the end-of-enumeration InvalidArgument response. -/
def qdrvNone : QueryDriver :=
  ⟨fun _ => .error ⟨.invalidInput, "no controls"⟩, fun _ _ => .error ⟨.invalidInput, "m"⟩⟩

/-- C3 counterexample: on a device exposing zero controls `query_controls`
propagates the first-response InvalidArgument error; it does not return an
empty list without error. -/
theorem query_controls_zero_counterexample :
    query_controls qdrvNone 1 = some (.error ⟨.invalidInput, "no controls"⟩) ∧
    some (QCOutcome.error ⟨.invalidInput, "no controls"⟩) ≠ some (QCOutcome.ok []) :=
  ⟨by decide, by decide⟩

/-- C3 amended: `query_controls` on a device whose very first response is an
error — in particular a zero-control device answering InvalidArgument —
propagates that error to the caller instead of returning an empty list. -/
theorem query_controls_zero_amended (drv : QueryDriver) (e : IoError) (fuel : Nat)
    (h : drv.extCtrl 0 = .error e) (hf : 0 < fuel) :
    query_controls drv fuel = some (.error e) := by
  obtain ⟨f, rfl⟩ : ∃ f, fuel = f + 1 := ⟨fuel - 1, by omega⟩
  simp [query_controls, query_controls_go, h]

/-- Witness for the amended C3 at the concrete zero-control driver. -/
theorem query_controls_zero_amended_witness :
    query_controls qdrvNone 3 = some (.error ⟨.invalidInput, "no controls"⟩) :=
  query_controls_zero_amended qdrvNone ⟨.invalidInput, "no controls"⟩ 3 rfl (by decide)

/-- C10: if the driver returns a Menu or IntegerMenu control whose `step` is
0 (after any well-formed prefix), `query_controls` panics — the Rust
`step_by(0)` assertion — instead of returning controls or an error. -/
theorem query_controls_step_zero_panics (drv : QueryDriver) (raws : Nat → RawExtCtrl)
    (n : Nat) (raw : RawExtCtrl) (fuel : Nat)
    (hpre : okLeadingRun drv raws n) (hn : drv.extCtrl n = .ok raw)
    (hmenu : raw.typ = CtrlType.Menu ∨ raw.typ = CtrlType.IntegerMenu)
    (hstep : raw.step = 0) (hfuel : n < fuel) :
    query_controls drv fuel = some (.panic "assertion failed: step != 0") := by
  have hstep0 := query_go_advance drv raws n hpre fuel 0 [] (Nat.zero_le n) (by omega)
  rw [Nat.sub_zero, List.nil_append, ← List.range_eq_range'] at hstep0
  obtain ⟨f, hf⟩ : ∃ f, fuel - n = f + 1 := ⟨fuel - n - 1, by omega⟩
  rw [hf] at hstep0
  rw [query_controls, hstep0]
  simp only [query_controls_go, hn]
  rw [if_pos (by simpa [Description.ofRaw] using hmenu), if_pos hstep]

/-- A driver whose first control is a Menu control declaring `step = 0`. -/
def qdrvStep0 : QueryDriver :=
  ⟨fun _ => .ok ⟨2, .Menu, "m", 0, 3, 0⟩, fun _ _ => .error ⟨.invalidInput, "m"⟩⟩

/-- Witness for C10 at the concrete zero-step menu driver. -/
theorem query_controls_step_zero_panics_witness :
    query_controls qdrvStep0 1 = some (.panic "assertion failed: step != 0") :=
  query_controls_step_zero_panics qdrvStep0 (fun _ => ⟨2, .Menu, "m", 0, 3, 0⟩) 0
    ⟨2, .Menu, "m", 0, 3, 0⟩ 1 (by unfold okLeadingRun; decide) rfl (Or.inl rfl) rfl
    (by decide)

lemma menu_indices_mem (mn mx : Int) (st : Nat) :
    ∀ i ∈ menu_indices mn mx st, mn ≤ i ∧ i ≤ mx := by
  intro i hi
  unfold menu_indices at hi
  split at hi
  · simp at hi
  · rw [List.mem_map] at hi
    obtain ⟨k, hk, rfl⟩ := hi
    rw [List.mem_range] at hk
    have hmxmn : mn ≤ mx := by omega
    constructor
    · have hpos : (0 : Int) ≤ (k : Int) * (st : Int) := by positivity
      omega
    · have hkle : k ≤ (mx - mn).toNat / st := by omega
      have h1 : k * st ≤ ((mx - mn).toNat / st) * st := Nat.mul_le_mul_right st hkle
      have h2 : ((mx - mn).toNat / st) * st ≤ (mx - mn).toNat := Nat.div_mul_le_self _ _
      have h3 : k * st ≤ (mx - mn).toNat := le_trans h1 h2
      have h4 : ((k * st : Nat) : Int) ≤ (((mx - mn).toNat : Nat) : Int) := by exact_mod_cast h3
      rw [Int.toNat_of_nonneg (by omega)] at h4
      push_cast at h4
      omega

lemma enum_menu_items_mem (drv : QueryDriver) (id : Nat) (typ : CtrlType)
    (mn mx : Int) (st : Nat) :
    ∀ p ∈ enum_menu_items drv id typ mn mx st,
      ∃ i ∈ menu_indices mn mx st, p.1 = intToU32 i ∧
        ∃ m, drv.menu id (intToU32 i) = .ok m := by
  intro p hp
  rw [enum_menu_items, List.mem_filterMap] at hp
  obtain ⟨i, hi, hfi⟩ := hp
  cases hm : drv.menu id (intToU32 i) with
  | error e => simp [hm] at hfi
  | ok m =>
    simp only [hm] at hfi
    injection hfi with hfi
    exact ⟨i, hi, by rw [← hfi], m, hm⟩

lemma intToU32_eq_toNat (i : Int) (h0 : 0 ≤ i) (h1 : i < 2 ^ 32) : intToU32 i = i.toNat := by
  unfold intToU32
  rw [Int.emod_eq_of_lt h0 h1]

lemma intToU32_inj {i j : Int} (hi0 : 0 ≤ i) (hi1 : i < 2 ^ 32) (hj0 : 0 ≤ j)
    (hj1 : j < 2 ^ 32) (h : intToU32 i = intToU32 j) : i = j := by
  rw [intToU32_eq_toNat i hi0 hi1, intToU32_eq_toNat j hj0 hj1] at h
  omega

lemma enum_menu_items_absent (drv : QueryDriver) (id : Nat) (typ : CtrlType)
    (mn mx : Int) (st : Nat) (hmn : 0 ≤ mn) (hmx : mx < 2 ^ 32)
    (i : Int) (hi : i ∈ menu_indices mn mx st) (e : IoError)
    (he : drv.menu id (intToU32 i) = .error e) :
    intToU32 i ∉ (enum_menu_items drv id typ mn mx st).map Prod.fst := by
  intro hmem
  rw [List.mem_map] at hmem
  obtain ⟨p, hp, hp1⟩ := hmem
  obtain ⟨j, hj, hpj, m, hm⟩ := enum_menu_items_mem drv id typ mn mx st p hp
  obtain ⟨hi1, hi2⟩ := menu_indices_mem mn mx st i hi
  obtain ⟨hj1, hj2⟩ := menu_indices_mem mn mx st j hj
  have h' : intToU32 j = intToU32 i := by rw [← hpj, hp1]
  have hij : j = i := intToU32_inj (le_trans hmn hj1) (lt_of_le_of_lt hj2 hmx)
    (le_trans hmn hi1) (lt_of_le_of_lt hi2 hmx) h'
  rw [hij, he] at hm
  cases hm

/-- A description's menu items, when present on a Menu/IntegerMenu control
produced by `query_controls`, are exactly the menu enumeration for its own
declared range. -/
def menuItemsProvenance (drv : QueryDriver) (d : Description) : Prop :=
  (d.typ = CtrlType.Menu ∨ d.typ = CtrlType.IntegerMenu) →
  d.items = some (enum_menu_items drv d.id d.typ d.minimum d.maximum d.step)

lemma query_go_provenance (drv : QueryDriver) :
    ∀ (fuel m : Nat) (acc ctrls : List Description),
      (∀ d ∈ acc, menuItemsProvenance drv d) →
      query_controls_go drv fuel m acc = some (.ok ctrls) →
      ∀ d ∈ ctrls, menuItemsProvenance drv d := by
  intro fuel
  induction fuel with
  | zero =>
    intro m acc ctrls hacc h
    simp [query_controls_go] at h
  | succ fuel ih =>
    intro m acc ctrls hacc h
    cases h0 : drv.extCtrl m with
    | error e =>
      simp only [query_controls_go, h0] at h
      by_cases hc : (acc.isEmpty ∨ e.kind ≠ ErrorKind.invalidInput)
      · rw [if_pos hc] at h
        simp at h
      · rw [if_neg hc] at h
        have hacc' : acc = ctrls := by simpa using h
        subst hacc'
        exact hacc
    | ok raw =>
      simp only [query_controls_go, h0] at h
      by_cases hmenu : ((Description.ofRaw raw).typ = CtrlType.Menu
          ∨ (Description.ofRaw raw).typ = CtrlType.IntegerMenu)
      · rw [if_pos hmenu] at h
        by_cases hstep : raw.step = 0
        · rw [if_pos hstep] at h
          simp at h
        · rw [if_neg hstep] at h
          refine ih (m + 1) _ ctrls ?_ h
          intro d hd
          rcases List.mem_append.mp hd with hd | hd
          · exact hacc d hd
          · rw [List.mem_singleton] at hd
            subst hd
            intro _
            rfl
      · rw [if_neg hmenu] at h
        refine ih (m + 1) _ ctrls ?_ h
        intro d hd
        rcases List.mem_append.mp hd with hd | hd
        · exact hacc d hd
        · rw [List.mem_singleton] at hd
          subst hd
          intro hm
          exact absurd hm hmenu

/-- Forget a description's menu items. -/
def stripItems (d : Description) : Description := { d with items := none }

/-- Forget every menu-item list inside a `query_controls` outcome. -/
def stripOutcome : QCOutcome → QCOutcome
  | .ok ctrls => .ok (ctrls.map stripItems)
  | .error e => .error e
  | .panic s => .panic s

lemma query_go_menu_independent (drv1 drv2 : QueryDriver)
    (hext : drv1.extCtrl = drv2.extCtrl) :
    ∀ (fuel m : Nat) (acc1 acc2 : List Description),
      acc1.map stripItems = acc2.map stripItems →
      (query_controls_go drv1 fuel m acc1).map stripOutcome
        = (query_controls_go drv2 fuel m acc2).map stripOutcome := by
  intro fuel
  induction fuel with
  | zero =>
    intro m acc1 acc2 hacc
    simp [query_controls_go]
  | succ fuel ih =>
    intro m acc1 acc2 hacc
    have hlen : acc1.isEmpty = acc2.isEmpty := by
      have hl := congrArg List.length hacc
      simp only [List.length_map] at hl
      cases acc1 <;> cases acc2 <;> simp_all
    cases h0 : drv1.extCtrl m with
    | error e =>
      have h0' : drv2.extCtrl m = .error e := by rw [← hext]; exact h0
      simp only [query_controls_go, h0, h0']
      by_cases hc : (acc1.isEmpty ∨ e.kind ≠ ErrorKind.invalidInput)
      · have hc2 : (acc2.isEmpty ∨ e.kind ≠ ErrorKind.invalidInput) := by
          rw [← hlen]; exact hc
        rw [if_pos hc, if_pos hc2]
      · have hc2 : ¬(acc2.isEmpty ∨ e.kind ≠ ErrorKind.invalidInput) := by
          rw [← hlen]; exact hc
        rw [if_neg hc, if_neg hc2]
        simp [stripOutcome, hacc]
    | ok raw =>
      have h0' : drv2.extCtrl m = .ok raw := by rw [← hext]; exact h0
      simp only [query_controls_go, h0, h0']
      by_cases hmenu : ((Description.ofRaw raw).typ = CtrlType.Menu
          ∨ (Description.ofRaw raw).typ = CtrlType.IntegerMenu)
      · by_cases hstep : raw.step = 0
        · rw [if_pos hmenu, if_pos hmenu, if_pos hstep, if_pos hstep]
        · rw [if_pos hmenu, if_pos hmenu, if_neg hstep, if_neg hstep]
          apply ih
          simp [hacc, stripItems]
      · rw [if_neg hmenu, if_neg hmenu]
        apply ih
        simp [hacc]

/-- C4: every Menu/IntegerMenu control in a successful `query_controls`
result carries an item list whose indices all come from the arithmetic
progression `minimum, minimum + step, ...` within `[minimum, maximum]`
(passed to the driver as their 32-bit truncation) and were each accepted by
the driver; an in-range index whose per-item query fails is absent from the
list (for ranges representable as u32 indices); and the outcome of the scan
apart from the item lists is entirely independent of the per-item menu
oracle — a failing item can abort neither the control's enumeration nor the
overall scan. -/
theorem query_controls_menu_items_spec :
    (∀ (drv : QueryDriver) (fuel : Nat) (ctrls : List Description),
      query_controls drv fuel = some (.ok ctrls) →
      ∀ d ∈ ctrls, (d.typ = CtrlType.Menu ∨ d.typ = CtrlType.IntegerMenu) →
      ∃ l, d.items = some l ∧
        (∀ p ∈ l, ∃ i ∈ menu_indices d.minimum d.maximum d.step,
          d.minimum ≤ i ∧ i ≤ d.maximum ∧ p.1 = intToU32 i ∧
          ∃ m, drv.menu d.id (intToU32 i) = .ok m) ∧
        (0 ≤ d.minimum → d.maximum < 2 ^ 32 →
          ∀ i ∈ menu_indices d.minimum d.maximum d.step,
          (∃ e, drv.menu d.id (intToU32 i) = .error e) →
          intToU32 i ∉ l.map Prod.fst)) ∧
    (∀ (drv1 drv2 : QueryDriver) (fuel : Nat), drv1.extCtrl = drv2.extCtrl →
      (query_controls drv1 fuel).map stripOutcome
        = (query_controls drv2 fuel).map stripOutcome) := by
  constructor
  · intro drv fuel ctrls h d hd hmenu
    have hprov := query_go_provenance drv fuel 0 [] ctrls (by simp) h d hd
    refine ⟨enum_menu_items drv d.id d.typ d.minimum d.maximum d.step, hprov hmenu, ?_, ?_⟩
    · intro p hp
      obtain ⟨i, hi, hpi, m, hm⟩ :=
        enum_menu_items_mem drv d.id d.typ d.minimum d.maximum d.step p hp
      obtain ⟨h1, h2⟩ := menu_indices_mem d.minimum d.maximum d.step i hi
      exact ⟨i, hi, h1, h2, hpi, m, hm⟩
    · rintro hmn hmx i hi ⟨e, he⟩
      exact enum_menu_items_absent drv d.id d.typ d.minimum d.maximum d.step hmn hmx i hi e he
  · intro drv1 drv2 fuel hext
    exact query_go_menu_independent drv1 drv2 hext fuel 0 [] [] rfl

/-- A driver exposing one Menu control with range 0..2 step 1 whose item
index 1 errors (the driver quirk `query_controls` tolerates). -/
def qdrvMenu : QueryDriver :=
  ⟨fun k => if k = 0 then .ok ⟨5, .Menu, "menu", 0, 2, 1⟩
            else .error ⟨.invalidInput, "done"⟩,
   fun _ idx => if idx = 1 then .error ⟨.invalidInput, "hole"⟩ else .ok ⟨"item", 0⟩⟩

/-- The description `query_controls` builds on `qdrvMenu`: index 1 skipped. -/
def dMenu : Description :=
  ⟨5, "menu", .Menu, 0, 2, 1, some [(0, .Name "item"), (2, .Name "item")]⟩

/-- Witness for C4 on the concrete one-menu-control driver. -/
theorem query_controls_menu_items_spec_witness :
    ∃ l, dMenu.items = some l ∧
      (∀ p ∈ l, ∃ i ∈ menu_indices dMenu.minimum dMenu.maximum dMenu.step,
        dMenu.minimum ≤ i ∧ i ≤ dMenu.maximum ∧ p.1 = intToU32 i ∧
        ∃ m, qdrvMenu.menu dMenu.id (intToU32 i) = .ok m) ∧
      (0 ≤ dMenu.minimum → dMenu.maximum < 2 ^ 32 →
        ∀ i ∈ menu_indices dMenu.minimum dMenu.maximum dMenu.step,
        (∃ e, qdrvMenu.menu dMenu.id (intToU32 i) = .error e) →
        intToU32 i ∉ l.map Prod.fst) :=
  query_controls_menu_items_spec.1 qdrvMenu 2 [dMenu] (by decide) dMenu (by decide)
    (by decide)

/-- The invariant tying the reference count to the close-exactly-once and
descriptor-validity guarantees. -/
def handleInv (s : HandleState) : Prop :=
  (0 < s.refcount → s.closes = 0 ∧ s.fdOpen = true) ∧
  (s.refcount = 0 → s.closes = 1 ∧ s.fdOpen = false)

lemma handle_step_inv (s : HandleState) (op : HandleOp) (hpos : 0 < s.refcount)
    (hinv : handleInv s) : handleInv (s.step op) := by
  obtain ⟨h1, _⟩ := hinv
  obtain ⟨hc, ho⟩ := h1 hpos
  cases op with
  | clone =>
    refine ⟨fun _ => ⟨hc, ho⟩, fun h => ?_⟩
    simp [HandleState.step] at h
  | drop =>
    by_cases h1' : s.refcount = 1
    · refine ⟨fun h => ?_, fun _ => ?_⟩
      · simp [HandleState.step, h1'] at h
      · simp [HandleState.step, h1', hc]
    · refine ⟨fun _ => ?_, fun h => ?_⟩
      · simpa [HandleState.step, h1'] using ⟨hc, ho⟩
      · simp [HandleState.step, h1'] at h
        omega

lemma handle_run_inv : ∀ (ops : List HandleOp) (s : HandleState),
    validOps s ops → handleInv s → handleInv (s.run ops) := by
  intro ops
  induction ops with
  | nil => intro s _ h; exact h
  | cons op rest ih =>
    rintro s ⟨hpos, hval⟩ hinv
    exact ih (s.step op) hval (handle_step_inv s op hpos hinv)

/-- C9: along every live-valid sequence of clone/drop events on a Handle,
the descriptor stays open and unclosed while any owning reference is alive,
and once the last reference is dropped the descriptor has been closed
exactly once; and `Handle::drop` treats a failing close as a fatal panic
(`unwrap`), never swallowing it. -/
theorem handle_close_once_spec :
    (∀ ops : List HandleOp, validOps HandleState.initial ops →
      (0 < (HandleState.initial.run ops).refcount →
        (HandleState.initial.run ops).closes = 0 ∧
        (HandleState.initial.run ops).fdOpen = true) ∧
      ((HandleState.initial.run ops).refcount = 0 →
        (HandleState.initial.run ops).closes = 1 ∧
        (HandleState.initial.run ops).fdOpen = false)) ∧
    (∀ e : IoError,
      handle_drop_close (.error e) = .panic "called Result::unwrap on an Err value") ∧
    handle_drop_close (.ok ()) = .normal := by
  refine ⟨?_, fun e => rfl, rfl⟩
  intro ops hval
  exact handle_run_inv ops HandleState.initial hval
    ⟨fun _ => ⟨rfl, rfl⟩, fun h => by simp [HandleState.initial] at h⟩

/-- Witness for C9: clone once, drop twice — the close happens exactly once,
at the second (last) drop. -/
theorem handle_close_once_spec_witness :
    (HandleState.initial.run [.clone, .drop, .drop]).closes = 1 ∧
    (HandleState.initial.run [.clone, .drop, .drop]).fdOpen = false :=
  (handle_close_once_spec.1 [.clone, .drop, .drop]
    (by simp [validOps, HandleState.step, HandleState.initial])).2 rfl

end V4l
